import Mathlib

/-!
Verification of the `rust-hello-world` HTTP service
(`src/rust-hello-world/src/main.rs`).

The program is a warp-based server with two routes:
* `hello = warp::path::end().map(...)` — answers the root path with a JSON
  body `{message, hostname, timestamp}`;
* `health = warp::path("health").map(...)` — answers with plain `OK`;
combined as `hello.or(health)`, served on `0.0.0.0:port` where `port` comes
from the `PORT` environment variable with default `8080`.

This file shallow-embeds that program: the environment lookup, Rust's
`u16::from_str`, the warp routing combinators used (`path::end`, `path`,
`or`, the default 404 on rejection), the hostname capture, and chrono's
`to_rfc3339` rendering, and proves the specification claims about them.
-/

/-- HTTP request as seen by warp routing: a method, a path already split
into segments (`/` ↦ `[]`, `/health` ↦ `["health"]`,
`/health/extra` ↦ `["health", "extra"]`), a query string and a body.
The handlers in `main.rs` look only at the path. -/
structure Request where
  method : String
  path : List String
  queryString : String
  reqBody : String

/-- JSON values, as far as the service needs them: serde serializes the
`Response` struct to an object of string fields. -/
inductive Json where
  | str : String → Json
  | obj : List (String × Json) → Json

/-- The `Response` struct of `main.rs` (fields in declaration order, which
is the order serde serializes them in). -/
structure Response where
  message : String
  hostname : String
  timestamp : String

/-- `#[derive(Serialize)]` on `Response`: a JSON object with exactly the
three fields, named after the struct fields, in declaration order. -/
def Response.toJson (r : Response) : Json :=
  Json.obj [("message", Json.str r.message),
            ("hostname", Json.str r.hostname),
            ("timestamp", Json.str r.timestamp)]

/-- A response body is either a JSON document (`warp::reply::json`) or
plain text (`&str` replies). -/
inductive RespBody where
  | json : Json → RespBody
  | text : String → RespBody

/-- An HTTP response: status code, optional Content-Type, body. -/
structure HttpResponse where
  status : Nat
  contentType : Option String
  respBody : RespBody

/-- Calendar timestamp, the data chrono's `Utc::now()` yields: the clock
reading that the greeting handler formats on each invocation. -/
structure DateTime where
  year : Nat
  month : Nat
  day : Nat
  hour : Nat
  minute : Nat
  second : Nat
  nanos : Nat

/-- Field ranges chrono guarantees for any `DateTime<Utc>` value. -/
def DateTime.Valid (d : DateTime) : Prop :=
  d.year ≤ 9999 ∧ 1 ≤ d.month ∧ d.month ≤ 12 ∧ 1 ≤ d.day ∧ d.day ≤ 31 ∧
  d.hour ≤ 23 ∧ d.minute ≤ 59 ∧ d.second ≤ 59 ∧ d.nanos < 1000000000

/-- The decimal digit character for `n % 10` (zero padding uses this). -/
def digitChar (n : Nat) : Char := Char.ofNat (48 + n % 10)

/-- Two-digit zero-padded rendering (chrono month/day/hour/minute/second). -/
def pad2 (n : Nat) : List Char := [digitChar (n / 10), digitChar n]

/-- Four-digit zero-padded rendering (chrono year). -/
def pad4 (n : Nat) : List Char :=
  [digitChar (n / 1000), digitChar (n / 100), digitChar (n / 10), digitChar n]

/-- Nine-digit zero-padded rendering (chrono nanoseconds). -/
def pad9 (n : Nat) : List Char :=
  [digitChar (n / 100000000), digitChar (n / 10000000), digitChar (n / 1000000),
   digitChar (n / 100000), digitChar (n / 10000), digitChar (n / 1000),
   digitChar (n / 100), digitChar (n / 10), digitChar n]

/-- chrono's `DateTime::<Utc>::to_rfc3339`, as a character list:
`YYYY-MM-DDTHH:MM:SS[.fraction]+00:00`, the fractional part present
exactly when the nanosecond field is nonzero.  (chrono prints the
fraction with 3, 6 or 9 digits depending on trailing zeros; we fix
9 digits, which is one of chrono's admissible outputs and does not
affect any property proved here.) -/
def toRfc3339Chars (d : DateTime) : List Char :=
  pad4 d.year ++ ('-' :: pad2 d.month) ++ ('-' :: pad2 d.day) ++
  ('T' :: pad2 d.hour) ++ (':' :: pad2 d.minute) ++ (':' :: pad2 d.second) ++
  (if d.nanos = 0 then [] else '.' :: pad9 d.nanos) ++
  ['+', '0', '0', ':', '0', '0']

/-- chrono's `to_rfc3339` as a string. -/
def toRfc3339 (d : DateTime) : String := String.mk (toRfc3339Chars d)

/-- ASCII decimal digit test. -/
def isDigitChar (c : Char) : Bool :=
  decide (48 ≤ c.toNat) && decide (c.toNat ≤ 57)

/-- Numeric value of a two-digit group. -/
def twoDigitVal (a b : Char) : Nat := (a.toNat - 48) * 10 + (b.toNat - 48)

/-- RFC 3339 `time-offset`: `Z` or `±hh:mm` with hh ≤ 23, mm ≤ 59. -/
def checkOffset : List Char → Bool
  | ['Z'] => true
  | [s, a, b, ':', c, d] =>
    (s == '+' || s == '-') && isDigitChar a && isDigitChar b &&
    isDigitChar c && isDigitChar d &&
    decide (twoDigitVal a b ≤ 23) && decide (twoDigitVal c d ≤ 59)
  | _ => false

/-- RFC 3339 optional `time-secfrac` (a dot followed by at least one
digit) and then the offset. -/
def checkFracThenOffset : List Char → Bool
  | '.' :: rest =>
    !(rest.takeWhile isDigitChar).isEmpty &&
    checkOffset (rest.dropWhile isDigitChar)
  | rest => checkOffset rest

/-- RFC 3339 `date-time` grammar check: `full-date "T" partial-time
time-offset` with the numeric ranges the grammar prescribes. -/
def checkRfc3339 : List Char → Bool
  | y1 :: y2 :: y3 :: y4 :: '-' :: m1 :: m2 :: '-' :: d1 :: d2 :: 'T' ::
    h1 :: h2 :: ':' :: mi1 :: mi2 :: ':' :: s1 :: s2 :: rest =>
    isDigitChar y1 && isDigitChar y2 && isDigitChar y3 && isDigitChar y4 &&
    isDigitChar m1 && isDigitChar m2 && isDigitChar d1 && isDigitChar d2 &&
    isDigitChar h1 && isDigitChar h2 && isDigitChar mi1 && isDigitChar mi2 &&
    isDigitChar s1 && isDigitChar s2 &&
    decide (1 ≤ twoDigitVal m1 m2) && decide (twoDigitVal m1 m2 ≤ 12) &&
    decide (1 ≤ twoDigitVal d1 d2) && decide (twoDigitVal d1 d2 ≤ 31) &&
    decide (twoDigitVal h1 h2 ≤ 23) && decide (twoDigitVal mi1 mi2 ≤ 59) &&
    decide (twoDigitVal s1 s2 ≤ 60) &&
    checkFracThenOffset rest
  | _ => false

/-- A string is in RFC 3339 `date-time` format. -/
def isRfc3339 (s : String) : Bool := checkRfc3339 s.toList

/-- The `hello` handler body: builds the `Response` with the fixed message,
the hostname captured at startup, and the formatting of the clock reading
taken at this invocation, and wraps it with `warp::reply::json` (status
200, Content-Type `application/json`). -/
def helloReply (hostname : String) (now : DateTime) : HttpResponse :=
  { status := 200
    contentType := some "application/json"
    respBody := RespBody.json (Response.toJson
      { message := "Hello World from Rust! 🦀"
        hostname := hostname
        timestamp := toRfc3339 now }) }

/-- The `health` handler body: `warp::reply::with_status("OK", OK)` —
status 200, plain-text body `OK` (warp tags `&str` replies with
`text/plain; charset=utf-8`). -/
def healthReply : HttpResponse :=
  { status := 200
    contentType := some "text/plain; charset=utf-8"
    respBody := RespBody.text "OK" }

/-- warp's reply for a request no filter accepted: 404 Not Found with an
empty body. -/
def notFoundReply : HttpResponse :=
  { status := 404, contentType := none, respBody := RespBody.text "" }

/-- `warp::path::end()`: accepts exactly when no path segment remains. -/
def helloMatches (req : Request) : Bool := req.path.isEmpty

/-- `warp::path("health")`: consumes one leading segment equal to
`health`; it does not require the rest of the path to be empty (no
`path::end()` follows it in `main.rs`). -/
def healthMatches (req : Request) : Bool :=
  match req.path with
  | seg :: _ => seg == "health"
  | [] => false

/-- `hello.or(health)` served by warp: try `hello`; on rejection try
`health`; if both reject, warp's default 404 reply. -/
def route (hostname : String) (now : DateTime) (req : Request) : HttpResponse :=
  if helloMatches req then helloReply hostname now
  else if healthMatches req then healthReply
  else notFoundReply

/-- State of the `PORT` environment variable: absent, present but not
valid unicode, or present with a string value. -/
inductive EnvVar where
  | absent
  | notUnicode
  | present : String → EnvVar

/-- `env::var("PORT")`: `Err` both when the variable is absent
(`NotPresent`) and when it is not valid unicode (`NotUnicode`). -/
def envGetPORT : EnvVar → Except Unit String
  | EnvVar.absent => Except.error ()
  | EnvVar.notUnicode => Except.error ()
  | EnvVar.present s => Except.ok s

/-- The digit loop of Rust's `u16::from_str` (radix 10): fold the digits
left to right with checked arithmetic; a non-digit character or a value
exceeding `u16::MAX = 65535` at any step is an error. -/
def parseDigitsAcc : Nat → List Char → Option Nat
  | acc, [] => some acc
  | acc, c :: cs =>
    if isDigitChar c then
      if acc * 10 + (c.toNat - 48) ≤ 65535 then
        parseDigitsAcc (acc * 10 + (c.toNat - 48)) cs
      else none
    else none

/-- Rust's `u16::from_str`: the empty string fails; a leading `+` is
stripped (and the remainder must be nonempty); a leading `-` is not a
digit for an unsigned type, so it fails in the digit loop; otherwise the
whole string is the digit sequence. -/
def parseU16 (s : String) : Option Nat :=
  match s.toList with
  | [] => none
  | c :: rest =>
    if c = '+' then
      if rest.isEmpty then none else parseDigitsAcc 0 rest
    else parseDigitsAcc 0 (c :: rest)

/-- Lines 33–36 of `main.rs`: `env::var("PORT").unwrap_or_else(|_|
"8080".to_string()).parse::<u16>().unwrap_or(8080)`. -/
def resolvePort (e : EnvVar) : Nat :=
  let s := match envGetPORT e with
    | Except.ok v => v
    | Except.error _ => "8080"
  (parseU16 s).getD 8080

/-- Decimal value a digit string denotes. -/
def digitsVal (cs : List Char) : Nat :=
  cs.foldl (fun a c => a * 10 + (c.toNat - 48)) 0

/-- The address/port pair handed to `warp::serve(...).run(([0, 0, 0, 0],
port))`. -/
structure ServerConfig where
  addr : List Nat
  port : Nat

/-- The listener binds all interfaces (`0.0.0.0`) on the resolved port. -/
def serverConfig (e : EnvVar) : ServerConfig :=
  { addr := [0, 0, 0, 0], port := resolvePort e }

/-- `gethostname::gethostname().into_string()` result, resolved at
startup, with `unwrap_or_else(|_| "unknown".to_string())` applied. -/
def startupHostname : Except Unit String → String
  | Except.ok s => s
  | Except.error _ => "unknown"

/-- Everything `main` prints before serving: exactly the one
`println!("Starting Rust server on port {}", port)` line — in
particular nothing about the `PORT` value or the hostname result. -/
def startupOutput (e : EnvVar) (_hostnameRes : Except Unit String) :
    List String :=
  ["Starting Rust server on port " ++ toString (resolvePort e)]

/-- One process lifetime: the OS hostname is a function of time
(`osName t` is what resolution would yield at step `t`); `main` resolves
it once at step 0, and every request — arriving at any later step, with
its own clock reading — is answered by `route` closed over that single
captured value. -/
def processResponses (osName : Nat → Except Unit String)
    (reqs : List (Nat × DateTime × Request)) : List HttpResponse :=
  let hostname := startupHostname (osName 0)
  reqs.map (fun q => route hostname q.2.1 q.2.2)

/-- Field of a JSON-object response body, by name. -/
def jsonField (resp : HttpResponse) (key : String) : Option Json :=
  match resp.respBody with
  | RespBody.json (Json.obj fields) => fields.lookup key
  | _ => none

/-- Key list of a JSON-object response body. -/
def jsonKeys (resp : HttpResponse) : Option (List String) :=
  match resp.respBody with
  | RespBody.json (Json.obj fields) => some (fields.map Prod.fst)
  | _ => none

theorem digitsValFrom_le (cs : List Char) :
    ∀ acc : Nat, acc ≤ cs.foldl (fun a c => a * 10 + (c.toNat - 48)) acc := by
  induction cs with
  | nil => intro acc; simp
  | cons c cs ih =>
    intro acc
    have h1 : acc ≤ acc * 10 + (c.toNat - 48) := by omega
    exact le_trans h1 (ih (acc * 10 + (c.toNat - 48)))

theorem parseDigitsAcc_eq_foldl (cs : List Char) :
    ∀ acc : Nat, (∀ c ∈ cs, isDigitChar c = true) →
    cs.foldl (fun a c => a * 10 + (c.toNat - 48)) acc ≤ 65535 →
    parseDigitsAcc acc cs =
      some (cs.foldl (fun a c => a * 10 + (c.toNat - 48)) acc) := by
  induction cs with
  | nil => intro acc _ _; simp [parseDigitsAcc]
  | cons c cs ih =>
    intro acc hdig hle
    have hc : isDigitChar c = true := hdig c (List.mem_cons_self c cs)
    have hstep : acc * 10 + (c.toNat - 48) ≤
        cs.foldl (fun a c => a * 10 + (c.toNat - 48)) (acc * 10 + (c.toNat - 48)) :=
      digitsValFrom_le cs _
    rw [List.foldl_cons] at hle
    simp only [parseDigitsAcc, hc, if_true, if_pos (le_trans hstep hle)]
    rw [ih _ (fun x hx => hdig x (List.mem_cons_of_mem c hx)) hle,
      List.foldl_cons]

theorem parseDigitsAcc_le (cs : List Char) :
    ∀ acc v : Nat, acc ≤ 65535 → parseDigitsAcc acc cs = some v → v ≤ 65535 := by
  induction cs with
  | nil =>
    intro acc v hacc h
    simp [parseDigitsAcc] at h
    omega
  | cons c cs ih =>
    intro acc v hacc h
    by_cases hc : isDigitChar c = true
    · simp only [parseDigitsAcc, hc, if_true] at h
      by_cases hv : acc * 10 + (c.toNat - 48) ≤ 65535
      · rw [if_pos hv] at h
        exact ih _ v hv h
      · rw [if_neg hv] at h
        exact absurd h (by simp)
    · simp only [parseDigitsAcc, hc, if_false] at h
      exact absurd h (by simp)

theorem parseU16_le (s : String) (v : Nat) (h : parseU16 s = some v) :
    v ≤ 65535 := by
  unfold parseU16 at h
  split at h
  · exact absurd h (by simp)
  · split at h
    · split at h
      · exact absurd h (by simp)
      · exact parseDigitsAcc_le _ 0 v (by omega) h
    · exact parseDigitsAcc_le _ 0 v (by omega) h

/-- C2: whenever `PORT` is absent (or not unicode) or its value fails the
`u16` parse, the resolved port is the default 8080, and the startup output
is the single ordinary port line — no error is raised, malformed input
being indistinguishable from absent input. -/
theorem port_default_on_invalid (e : EnvVar) (hres : Except Unit String)
    (h : ∀ s, envGetPORT e = Except.ok s → parseU16 s = none) :
    resolvePort e = 8080 ∧
    startupOutput e hres = ["Starting Rust server on port 8080"] := by
  have hp : resolvePort e = 8080 := by
    cases e with
    | absent => decide
    | notUnicode => decide
    | present s =>
      have hn := h s rfl
      simp [resolvePort, envGetPORT, hn]
  refine ⟨hp, ?_⟩
  unfold startupOutput
  rw [hp]
  decide

theorem port_default_on_invalid_witness :
    resolvePort (EnvVar.present "abc") = 8080 ∧
    startupOutput (EnvVar.present "abc") (Except.ok "anyhost") =
      ["Starting Rust server on port 8080"] :=
  port_default_on_invalid (EnvVar.present "abc") (Except.ok "anyhost")
    (fun s hs => by simp [envGetPORT] at hs; subst hs; decide)

theorem parseU16_digits (c : Char) (rest : List Char) (s : String)
    (hs : s.toList = c :: rest)
    (hdig : ∀ x ∈ s.toList, isDigitChar x = true)
    (hle : digitsVal s.toList ≤ 65535) :
    parseU16 s = some (digitsVal s.toList) := by
  have hc : ¬c = '+' := by
    intro hplus
    have hmem := hdig c (by rw [hs]; exact List.mem_cons_self c rest)
    rw [hplus] at hmem
    exact absurd hmem (by decide)
  unfold parseU16
  rw [hs]
  simp only [hc, if_false]
  rw [hs] at hdig hle
  exact parseDigitsAcc_eq_foldl (c :: rest) 0 hdig hle

/-- C3: for every `PORT` value that is a (nonempty) numeric string whose
value `n` is at most 65535, the resolution yields exactly `n` and the
server is configured to bind `0.0.0.0` on that exact port. -/
theorem port_numeric_exact (s : String) (n : Nat)
    (hne : s.toList ≠ [])
    (hdig : ∀ c ∈ s.toList, isDigitChar c = true)
    (hval : digitsVal s.toList = n) (hle : n ≤ 65535) :
    resolvePort (EnvVar.present s) = n ∧
    serverConfig (EnvVar.present s) = { addr := [0, 0, 0, 0], port := n } := by
  rcases hs : s.toList with _ | ⟨c, rest⟩
  · exact absurd hs hne
  · have hp : parseU16 s = some n := by
      rw [← hval]
      exact parseU16_digits c rest s hs hdig (hval ▸ hle)
    have hr : resolvePort (EnvVar.present s) = n := by
      simp [resolvePort, envGetPORT, hp]
    exact ⟨hr, by simp [serverConfig, hr]⟩

theorem port_numeric_exact_witness :
    resolvePort (EnvVar.present "3000") = 3000 ∧
    serverConfig (EnvVar.present "3000") =
      { addr := [0, 0, 0, 0], port := 3000 } :=
  port_numeric_exact "3000" 3000 (by decide) (by decide) (by decide)
    (by decide)

/-- C9: port resolution is a total function of the environment state —
absent, any present string, or a non-unicode value — and always lands in
the `u16` range; both fallible steps are absorbed by their fallbacks. -/
theorem port_resolution_total (e : EnvVar) : resolvePort e ≤ 65535 := by
  have h : ∀ s : String, (parseU16 s).getD 8080 ≤ 65535 := by
    intro s
    rcases hp : parseU16 s with _ | v
    · simp
    · simpa using parseU16_le s v hp
  cases e with
  | absent => simpa [resolvePort, envGetPORT] using h "8080"
  | notUnicode => simpa [resolvePort, envGetPORT] using h "8080"
  | present s => simpa [resolvePort, envGetPORT] using h s

/-- C10: a `PORT` value of `+` followed by digits denoting `n ≤ 65535`
passes the parse and yields `n` (not the default), while a value with
surrounding whitespace such as `" 8080"` fails the parse and falls back
to 8080. -/
theorem port_plus_sign_accepted (s : String) (cs : List Char) (n : Nat)
    (hs : s.toList = '+' :: cs) (hne : cs ≠ [])
    (hdig : ∀ c ∈ cs, isDigitChar c = true)
    (hval : digitsVal cs = n) (hle : n ≤ 65535) :
    parseU16 s = some n ∧ resolvePort (EnvVar.present s) = n ∧
    parseU16 " 8080" = none ∧ resolvePort (EnvVar.present " 8080") = 8080 := by
  rcases cs with _ | ⟨c0, cs0⟩
  · exact absurd rfl hne
  · have hp : parseU16 s = some n := by
      unfold parseU16
      rw [hs]
      simp only [if_pos rfl, List.isEmpty_cons, if_false, Bool.false_eq_true,
        ite_false]
      rw [← hval]
      have hfold :
          List.foldl (fun a c => a * 10 + (c.toNat - 48)) 0 (c0 :: cs0) ≤
            65535 := by
        have heq : digitsVal (c0 :: cs0) = n := hval
        unfold digitsVal at heq
        omega
      exact parseDigitsAcc_eq_foldl (c0 :: cs0) 0 hdig hfold
    refine ⟨hp, by simp [resolvePort, envGetPORT, hp], by decide, by decide⟩

theorem port_plus_sign_accepted_witness :
    parseU16 "+9001" = some 9001 ∧
    resolvePort (EnvVar.present "+9001") = 9001 ∧
    parseU16 " 8080" = none ∧ resolvePort (EnvVar.present " 8080") = 8080 :=
  port_plus_sign_accepted "+9001" ['9', '0', '0', '1'] 9001 (by decide)
    (by decide) (by decide) (by decide) (by decide)

/-- C1: every request whose path is the root — whatever its method, query
or body — gets status 200, Content-Type `application/json`, and a JSON
object with exactly the fields `message`, `hostname`, `timestamp`, with
`message` the fixed literal. -/
theorem hello_root_response (h : String) (now : DateTime) (req : Request)
    (hp : req.path = []) :
    (route h now req).status = 200 ∧
    (route h now req).contentType = some "application/json" ∧
    jsonKeys (route h now req) = some ["message", "hostname", "timestamp"] ∧
    jsonField (route h now req) "message" =
      some (Json.str "Hello World from Rust! 🦀") := by
  have hm : helloMatches req = true := by simp [helloMatches, hp]
  simp [route, hm, helloReply, Response.toJson, jsonKeys, jsonField,
    List.lookup]

theorem hello_root_response_witness :
    (route "myhost" ⟨2024, 1, 1, 0, 0, 0, 0⟩
      ⟨"POST", [], "a=b", "ignored"⟩).status = 200 ∧
    (route "myhost" ⟨2024, 1, 1, 0, 0, 0, 0⟩
      ⟨"POST", [], "a=b", "ignored"⟩).contentType = some "application/json" ∧
    jsonKeys (route "myhost" ⟨2024, 1, 1, 0, 0, 0, 0⟩
      ⟨"POST", [], "a=b", "ignored"⟩) =
      some ["message", "hostname", "timestamp"] ∧
    jsonField (route "myhost" ⟨2024, 1, 1, 0, 0, 0, 0⟩
      ⟨"POST", [], "a=b", "ignored"⟩) "message" =
      some (Json.str "Hello World from Rust! 🦀") :=
  hello_root_response "myhost" ⟨2024, 1, 1, 0, 0, 0, 0⟩
    ⟨"POST", [], "a=b", "ignored"⟩ rfl

/-- C4 counterexample: the request `GET /health/extra` — whose path is not
the single literal segment `health` — is nonetheless accepted by the
health route (`warp::path("health")` consumes one segment and imposes
nothing on the rest), and the service answers it 200 `OK`; so the health
route does not match *exactly* the single-segment paths. -/
theorem health_exact_match_cex :
    healthMatches ⟨"GET", ["health", "extra"], "", ""⟩ = true ∧
    (["health", "extra"] ≠ (["health"] : List String)) ∧
    (route "h" ⟨2024, 1, 1, 0, 0, 0, 0⟩
      ⟨"GET", ["health", "extra"], "", ""⟩).status = 200 ∧
    (route "h" ⟨2024, 1, 1, 0, 0, 0, 0⟩
      ⟨"GET", ["health", "extra"], "", ""⟩).respBody = RespBody.text "OK" :=
  ⟨rfl, by decide, rfl, rfl⟩

/-- C4 (amended): the health route matches exactly those requests whose
path *begins* with the literal segment `health` (any method, any trailing
segments), and each such request is answered with status 200 and body
exactly `OK`. -/
theorem health_prefix_match (req : Request) (h : String) (now : DateTime) :
    (healthMatches req = true ↔ ∃ rest, req.path = "health" :: rest) ∧
    (healthMatches req = true → route h now req = healthReply) ∧
    healthReply.status = 200 ∧ healthReply.respBody = RespBody.text "OK" := by
  refine ⟨?_, ?_, rfl, rfl⟩
  · unfold healthMatches
    rcases hp : req.path with _ | ⟨seg, rest⟩
    · simp
    · simp [beq_iff_eq]
  · intro hh
    unfold healthMatches at hh
    rcases hp : req.path with _ | ⟨seg, rest⟩
    · rw [hp] at hh; exact absurd hh (by simp)
    · rw [hp] at hh
      simp only [beq_iff_eq] at hh
      have hm : helloMatches req = false := by simp [helloMatches, hp]
      simp [route, hm, healthMatches, hp, hh]

theorem health_prefix_match_witness :
    healthMatches ⟨"GET", ["health"], "", ""⟩ = true ∧
    route "h" ⟨2024, 1, 1, 0, 0, 0, 0⟩ ⟨"GET", ["health"], "", ""⟩ =
      healthReply :=
  ⟨(health_prefix_match ⟨"GET", ["health"], "", ""⟩ "h"
      ⟨2024, 1, 1, 0, 0, 0, 0⟩).1.mpr ⟨[], rfl⟩,
   (health_prefix_match ⟨"GET", ["health"], "", ""⟩ "h"
      ⟨2024, 1, 1, 0, 0, 0, 0⟩).2.1 rfl⟩

/-- C5: routing is first-match-wins alternation — `route` is literally
"test the greeting predicate, else the health predicate, else warp's
default" — and every request both predicates reject (such as `GET /foo`)
gets the framework-default not-found reply, whose status is 404. -/
theorem route_fallthrough_404 (h : String) (now : DateTime) (req : Request)
    (h1 : helloMatches req = false) (h2 : healthMatches req = false) :
    route h now req = notFoundReply ∧ notFoundReply.status = 404 ∧
    (∀ r2 : Request, route h now r2 =
      if helloMatches r2 then helloReply h now
      else if healthMatches r2 then healthReply else notFoundReply) := by
  refine ⟨by simp [route, h1, h2], rfl, fun r2 => rfl⟩

theorem route_fallthrough_404_witness :
    route "h" ⟨2024, 1, 1, 0, 0, 0, 0⟩ ⟨"GET", ["foo"], "", ""⟩ =
      notFoundReply ∧ notFoundReply.status = 404 ∧
    (∀ r2 : Request, route "h" ⟨2024, 1, 1, 0, 0, 0, 0⟩ r2 =
      if helloMatches r2 then helloReply "h" ⟨2024, 1, 1, 0, 0, 0, 0⟩
      else if healthMatches r2 then healthReply else notFoundReply) :=
  route_fallthrough_404 "h" ⟨2024, 1, 1, 0, 0, 0, 0⟩ ⟨"GET", ["foo"], "", ""⟩
    (by decide) (by decide)

/-- C6: in a process run the hostname is taken from the resolution at
step 0 only — runs over OS states that agree at step 0 produce identical
responses however the OS hostname changes later — and every greeting
response carries that one startup-captured value as its `hostname`
field. -/
theorem hostname_resolved_once (os₁ os₂ : Nat → Except Unit String)
    (h0 : os₁ 0 = os₂ 0) (reqs : List (Nat × DateTime × Request)) :
    processResponses os₁ reqs = processResponses os₂ reqs ∧
    processResponses os₁ reqs =
      reqs.map (fun q => route (startupHostname (os₁ 0)) q.2.1 q.2.2) ∧
    ∀ q ∈ reqs, q.2.2.path = [] →
      jsonField (route (startupHostname (os₁ 0)) q.2.1 q.2.2) "hostname" =
        some (Json.str (startupHostname (os₁ 0))) := by
  refine ⟨by simp [processResponses, h0], rfl, ?_⟩
  intro q _ hq
  have hm : helloMatches q.2.2 = true := by simp [helloMatches, hq]
  simp [route, hm, helloReply, Response.toJson, jsonField, List.lookup]

theorem hostname_resolved_once_witness :
    processResponses (fun _ => Except.ok "box")
      [(5, ⟨2024, 1, 1, 0, 0, 0, 0⟩, ⟨"GET", [], "", ""⟩)] =
    processResponses
      (fun t => if t = 0 then Except.ok "box" else Except.ok "renamed")
      [(5, ⟨2024, 1, 1, 0, 0, 0, 0⟩, ⟨"GET", [], "", ""⟩)] ∧
    jsonField (route (startupHostname (Except.ok "box"))
        ⟨2024, 1, 1, 0, 0, 0, 0⟩ ⟨"GET", [], "", ""⟩) "hostname" =
      some (Json.str (startupHostname (Except.ok "box"))) :=
  ⟨(hostname_resolved_once (fun _ => Except.ok "box")
      (fun t => if t = 0 then Except.ok "box" else Except.ok "renamed")
      rfl [(5, ⟨2024, 1, 1, 0, 0, 0, 0⟩, ⟨"GET", [], "", ""⟩)]).1,
   (hostname_resolved_once (fun _ => Except.ok "box")
      (fun t => if t = 0 then Except.ok "box" else Except.ok "renamed")
      rfl [(5, ⟨2024, 1, 1, 0, 0, 0, 0⟩, ⟨"GET", [], "", ""⟩)]).2.2
      (5, ⟨2024, 1, 1, 0, 0, 0, 0⟩, ⟨"GET", [], "", ""⟩)
      (List.mem_singleton.mpr rfl) rfl⟩

/-- C7: when hostname resolution fails, startup substitutes the literal
`"unknown"` — which every greeting response then carries — and the
startup output is the same single port line as on success: no warning is
emitted. -/
theorem hostname_failure_unknown (e : EnvVar) (ok : String) (now : DateTime)
    (req : Request) (hp : req.path = []) :
    startupHostname (Except.error ()) = "unknown" ∧
    jsonField (route (startupHostname (Except.error ())) now req)
      "hostname" = some (Json.str "unknown") ∧
    startupOutput e (Except.error ()) = startupOutput e (Except.ok ok) := by
  have hm : helloMatches req = true := by simp [helloMatches, hp]
  refine ⟨rfl, ?_, rfl⟩
  simp [route, hm, helloReply, Response.toJson, jsonField, List.lookup,
    startupHostname]

theorem hostname_failure_unknown_witness :
    startupHostname (Except.error ()) = "unknown" ∧
    jsonField (route (startupHostname (Except.error ()))
      ⟨2024, 1, 1, 0, 0, 0, 0⟩ ⟨"GET", [], "", ""⟩) "hostname" =
      some (Json.str "unknown") ∧
    startupOutput EnvVar.absent (Except.error ()) =
      startupOutput EnvVar.absent (Except.ok "somehost") :=
  hostname_failure_unknown EnvVar.absent "somehost" ⟨2024, 1, 1, 0, 0, 0, 0⟩
    ⟨"GET", [], "", ""⟩ rfl

theorem digitChar_toNat (n : Nat) : (digitChar n).toNat = 48 + n % 10 := by
  unfold digitChar
  obtain ⟨k, hk, hek⟩ : ∃ k, k < 10 ∧ n % 10 = k :=
    ⟨n % 10, Nat.mod_lt _ (by norm_num), rfl⟩
  rw [hek]
  interval_cases k <;> decide

theorem isDigitChar_digitChar (n : Nat) : isDigitChar (digitChar n) = true := by
  have h := digitChar_toNat n
  have hk : n % 10 < 10 := Nat.mod_lt _ (by norm_num)
  simp only [isDigitChar, h, Bool.and_eq_true, decide_eq_true_eq]
  omega

theorem twoDigitVal_pad (n : Nat) (h : n ≤ 99) :
    twoDigitVal (digitChar (n / 10)) (digitChar n) = n := by
  unfold twoDigitVal
  rw [digitChar_toNat, digitChar_toNat]
  have h1 : n / 10 % 10 = n / 10 := Nat.mod_eq_of_lt (by omega)
  omega

theorem checkFracThenOffset_frac (n : Nat) :
    checkFracThenOffset ('.' :: (pad9 n ++ ['+', '0', '0', ':', '0', '0'])) =
      true := by
  simp only [pad9, List.cons_append, List.nil_append]
  simp only [checkFracThenOffset]
  simp only [List.takeWhile, List.dropWhile, isDigitChar_digitChar,
    List.isEmpty_cons, Bool.not_false, Bool.true_and]
  decide

theorem checkRfc3339_toRfc3339 (d : DateTime) (hv : d.Valid) :
    checkRfc3339 (toRfc3339Chars d) = true := by
  obtain ⟨hy, hm1, hm2, hd1, hd2, hh, hmi, hs, hn⟩ := hv
  unfold toRfc3339Chars pad4 pad2
  simp only [List.cons_append, List.nil_append, List.append_assoc]
  simp only [checkRfc3339, Bool.and_eq_true, isDigitChar_digitChar,
    decide_eq_true_eq, true_and]
  rw [twoDigitVal_pad d.month (by omega), twoDigitVal_pad d.day (by omega),
    twoDigitVal_pad d.hour (by omega), twoDigitVal_pad d.minute (by omega),
    twoDigitVal_pad d.second (by omega)]
  refine ⟨⟨⟨⟨⟨⟨⟨by omega, by omega⟩, by omega⟩, by omega⟩, by omega⟩,
    by omega⟩, by omega⟩, ?_⟩
  by_cases h0 : d.nanos = 0
  · rw [if_pos h0]
    decide
  · rw [if_neg h0]
    exact checkFracThenOffset_frac d.nanos

/-- C8: the greeting response built at a given invocation carries as its
`timestamp` field exactly the RFC 3339 rendering of the clock reading
taken at that invocation — so it is recomputed per request — and that
rendering is a valid RFC 3339 `date-time` string for every clock value
chrono can produce. -/
theorem timestamp_fresh_rfc3339 (h : String) (now : DateTime) (req : Request)
    (hv : now.Valid) (hp : req.path = []) :
    jsonField (route h now req) "timestamp" =
      some (Json.str (toRfc3339 now)) ∧
    isRfc3339 (toRfc3339 now) = true := by
  have hm : helloMatches req = true := by simp [helloMatches, hp]
  refine ⟨?_, ?_⟩
  · simp [route, hm, helloReply, Response.toJson, jsonField, List.lookup]
  · exact checkRfc3339_toRfc3339 now hv

theorem timestamp_fresh_rfc3339_witness :
    jsonField (route "myhost" ⟨2024, 12, 31, 23, 59, 59, 123456789⟩
        ⟨"GET", [], "", ""⟩) "timestamp" =
      some (Json.str (toRfc3339 ⟨2024, 12, 31, 23, 59, 59, 123456789⟩)) ∧
    isRfc3339 (toRfc3339 ⟨2024, 12, 31, 23, 59, 59, 123456789⟩) = true :=
  timestamp_fresh_rfc3339 "myhost" ⟨2024, 12, 31, 23, 59, 59, 123456789⟩
    ⟨"GET", [], "", ""⟩
    (by unfold DateTime.Valid; norm_num) rfl
